import Mathlib

/-!
Shallow embedding of the external-data synchronization and monitoring engine
of the DraXon_OCULUS repository: the HTTP retry layer (`RSIScraper._make_request`,
`RSIStatusMonitorCog.make_request`), the status poller (`RSIStatusMonitorCog`),
the incident poller (`RSIIncidentMonitorCog`), the paginated roster crawl
(`RSIIntegrationCog.get_org_members`) and the membership reconciliation step
(`MembershipMonitorCog.check_member_roles`), together with theorems checking
the natural-language specification against these definitions.
-/

namespace DraXon

/-! ## String helpers

Python's `sub in s` substring test, modelled on character lists. -/

/-- Boolean test that `p` is an initial segment of `s` (character-by-character). -/
def listStartsWith : List Char → List Char → Bool
  | _, [] => true
  | [], _ :: _ => false
  | a :: s, b :: p => if a = b then listStartsWith s p else false

/-- Boolean test that `p` occurs contiguously inside `s`. -/
def listHasSub : List Char → List Char → Bool
  | [], p => listStartsWith [] p
  | a :: s, p => listStartsWith (a :: s) p || listHasSub s p

/-- Python's `pat in s` substring containment on strings. -/
def strContains (s pat : String) : Bool :=
  listHasSub s.toList pat.toList

/-- Lower-case one character (ASCII case folding, which covers every string the
embedded code lower-cases). -/
def charLower (c : Char) : Char :=
  if 'A' ≤ c ∧ c ≤ 'Z' then Char.ofNat (c.toNat + 32) else c

/-- Python's `s.lower()`. -/
def strToLower (s : String) : String :=
  String.mk (s.toList.map charLower)

/-- Python's `s.strip()`: drop leading and trailing whitespace. -/
def strTrim (s : String) : String :=
  String.mk
    (((s.toList.dropWhile Char.isWhitespace).reverse.dropWhile Char.isWhitespace).reverse)

/-- Decimal digits to a number, most significant first. -/
def digitsToNat : List Char → Nat → Nat
  | [], acc => acc
  | c :: rest, acc => digitsToNat rest (acc * 10 + (c.toNat - '0'.toNat))

/-- Python's `int(s)` on a plain decimal numeral. -/
def strToNat (s : String) : Nat :=
  digitsToNat s.toList 0

/-- Split `"HH:MM"` into the part before and the part after the colon. -/
def splitAtColon (l : List Char) : List Char × List Char :=
  (l.takeWhile (· != ':'), (l.dropWhile (· != ':')).drop 1)

/-! ## Configuration constants (`src/utils/constants.py`) -/

/-- The `ROLE_HIERARCHY` list from `constants.py`, lowest rank first. -/
def ROLE_HIERARCHY : List String :=
  ["Screening", "Applicant", "Employee", "Team Leader", "Executive", "Chairman", "Magnate"]

/-- Setting `ROLE_SETTINGS['LEADERSHIP_MAX_RANK']`: maximum rank for affiliates. -/
def LEADERSHIP_MAX_RANK : String := "Team Leader"

/-- Setting `ROLE_SETTINGS['DEFAULT_DEMOTION_RANK']`: rank affiliates are demoted to. -/
def DEFAULT_DEMOTION_RANK : String := "Employee"

/-- Setting `ROLE_SETTINGS['UNAFFILIATED_RANK']`: rank for members not in the org. -/
def UNAFFILIATED_RANK : String := "Screening"

/-- Message `SYSTEM_MESSAGES['DEMOTION_REASONS']['affiliate']`. -/
def REASON_AFFILIATE : String := "Affiliate status incompatible with leadership role"

/-- Message `SYSTEM_MESSAGES['DEMOTION_REASONS']['not_in_org']`. -/
def REASON_NOT_IN_ORG : String := "Not found in organization"

/-- Keys of the `STATUS_EMOJIS` dict from `constants.py` (the recognised status tags). -/
def STATUS_EMOJIS_KEYS : List String :=
  ["operational", "degraded", "partial", "major", "maintenance", "unknown"]

/-- Setting `RSI_CONFIG['MEMBERS_PER_PAGE']`. -/
def MEMBERS_PER_PAGE : Nat := 32

/-- Setting `RSI_CONFIG['MAINTENANCE_START']`. -/
def MAINTENANCE_START : String := "22:00"

/-- Setting `RSI_CONFIG['MAINTENANCE_DURATION']` (hours). -/
def MAINTENANCE_DURATION : Nat := 3

/-! ## HTTP fetch with retries

Two distinct fetch implementations exist in the source:
`RSIScraper._make_request` (`src/utils/rsi_scraper.py`, lines 48-128) and
`RSIStatusMonitorCog.make_request` (`src/cogs/rsi_status_monitor.py`, lines 47-74).
The network is modelled as a function from the attempt index to that attempt's
outcome. -/

/-- Outcome of one HTTP attempt: a response with an HTTP status code, an
`asyncio.TimeoutError`, or an `aiohttp.ClientError` (connection failure). -/
inductive AttemptResult where
  | httpStatus (code : Nat)
  | timeout
  | connError
deriving DecidableEq, Repr

/-- The set `self.retry_statuses = {408, 429, 500, 502, 503, 504}` of `RSIScraper`. -/
def retryStatuses : List Nat := [408, 429, 500, 502, 503, 504]

/-- The bound `self.max_retries = 5` of `RSIScraper`. -/
def maxRetries : Nat := 5

/-- An attempt outcome on which `RSIScraper._make_request` continues to the next
attempt: a timeout, a connection error, or an HTTP status in `retryStatuses`. -/
def retryable : AttemptResult → Bool
  | .httpStatus c => c ∈ retryStatuses
  | .timeout => true
  | .connError => true

/-- Result of a whole fetch: `payload = some a` means the response of attempt `a`
was returned, `none` means the fetch failed; `attempts` counts attempts made;
`sleeps` lists the durations slept between attempts (in seconds). -/
structure FetchTrace where
  payload : Option Nat
  attempts : Nat
  sleeps : List ℚ
deriving DecidableEq, Repr

/-- The sleep `min(2 ** attempt + jitter, 10)` inserted by `RSIScraper._make_request`
before retry attempt `attempt` (the code draws `jitter` from `[0.1, 0.5]`). -/
def backoffSleep (attempt : Nat) (jit : ℚ) : ℚ :=
  min ((2 : ℚ) ^ attempt + jit) 10

/-- The `for attempt in range(self.max_retries)` loop of `RSIScraper._make_request`:
status 200 returns the response; a status in `retry_statuses` continues; any other
status returns `None` at once; `TimeoutError`/`ClientError` continue.  `a` is the
index of the attempt about to run, `fuel` the number of attempts still allowed. -/
def scraperGo (srv : Nat → AttemptResult) (jitter : Nat → ℚ) : Nat → Nat → FetchTrace
  | 0, a => { payload := none, attempts := a, sleeps := [] }
  | fuel + 1, a =>
    let pre : List ℚ := if a = 0 then [] else [backoffSleep a (jitter a)]
    match srv a with
    | .httpStatus c =>
      if c = 200 then { payload := some a, attempts := a + 1, sleeps := pre }
      else if c ∈ retryStatuses then
        let t := scraperGo srv jitter fuel (a + 1)
        { t with sleeps := pre ++ t.sleeps }
      else { payload := none, attempts := a + 1, sleeps := pre }
    | .timeout =>
      let t := scraperGo srv jitter fuel (a + 1)
      { t with sleeps := pre ++ t.sleeps }
    | .connError =>
      let t := scraperGo srv jitter fuel (a + 1)
      { t with sleeps := pre ++ t.sleeps }

/-- Function `RSIScraper._make_request`: run the attempt loop from attempt 0 with
`max_retries` attempts allowed. -/
def scraperMakeRequest (srv : Nat → AttemptResult) (jitter : Nat → ℚ) : FetchTrace :=
  scraperGo srv jitter maxRetries 0

/-- The `for attempt in range(3)` loop of `RSIStatusMonitorCog.make_request`:
status 200 returns the text; ANY other outcome (any non-200 status, timeout,
client error, unexpected error) falls through to the next attempt, sleeping
`2 ** attempt` seconds when `attempt < 2`. -/
def monitorGo (srv : Nat → AttemptResult) : Nat → Nat → FetchTrace
  | 0, a => { payload := none, attempts := a, sleeps := [] }
  | fuel + 1, a =>
    match srv a with
    | .httpStatus 200 => { payload := some a, attempts := a + 1, sleeps := [] }
    | _ =>
      let post : List ℚ := if a < 2 then [(2 : ℚ) ^ a] else []
      let t := monitorGo srv fuel (a + 1)
      { t with sleeps := post ++ t.sleeps }

/-- Function `RSIStatusMonitorCog.make_request`: 3 attempts, retrying on every failure. -/
def monitorMakeRequest (srv : Nat → AttemptResult) : FetchTrace :=
  monitorGo srv 3 0

/-! ## Membership reconciliation (`MembershipMonitorCog.check_member_roles`)

The cog iterates over the guild members, skips bots and members with no row in
the `rsi_members` table, derives the member's current rank as the first of their
Discord roles that occurs in `ROLE_HIERARCHY`, and demotes:
to `UNAFFILIATED_RANK` when the stored handle is not among the (lower-cased)
roster handles, and to `DEFAULT_DEMOTION_RANK` when the stored `org_status`
column equals `'Affiliate'` and the current rank sits strictly above
`LEADERSHIP_MAX_RANK` in the hierarchy.  `_handle_demotion` removes the old
rank role, adds the new one and appends to the demotion log. -/

/-- A row of the local `rsi_members` table (the columns the check reads). -/
structure DbRow where
  handle : String
  orgStatus : String
deriving DecidableEq, Repr

/-- A guild member together with their optional `rsi_members` row. -/
structure MemberState where
  mid : Nat
  bot : Bool
  roles : List String
  db : Option DbRow
deriving DecidableEq, Repr

/-- One entry of the `demotion_log` produced by `_handle_demotion`. -/
structure RoleChangeEvent where
  mid : Nat
  oldRank : Option String
  newRank : String
  reason : String
deriving DecidableEq, Repr

/-- The expression `next((r for r in current_roles if r in ROLE_HIERARCHY), None)`. -/
def currentRank (roles : List String) : Option String :=
  roles.find? (fun r => r ∈ ROLE_HIERARCHY)

/-- The expression `ROLE_HIERARCHY.index(r)`. -/
def rankIndex (r : String) : Nat :=
  ROLE_HIERARCHY.indexOf r

/-- The role mutation performed by `_handle_demotion`: remove the old rank role
(when there was one) and add the new rank role. -/
def applyDemotion (roles : List String) (oldRank : Option String) (newRank : String) :
    List String :=
  (match oldRank with
   | some r => roles.erase r
   | none => roles) ++ [newRank]

/-- The per-member body of the loop in `check_member_roles`: returns the member's
new state and the demotion-log entry, if one is appended. -/
def memberStep (orgHandles : List String) (m : MemberState) :
    MemberState × Option RoleChangeEvent :=
  if m.bot then (m, none)
  else
    match m.db with
    | none => (m, none)
    | some d =>
      let cr := currentRank m.roles
      let inOrg := strToLower d.handle ∈ orgHandles
      if ¬ inOrg then
        if cr ≠ some UNAFFILIATED_RANK then
          ({ m with roles := applyDemotion m.roles cr UNAFFILIATED_RANK },
           some ⟨m.mid, cr, UNAFFILIATED_RANK, REASON_NOT_IN_ORG⟩)
        else (m, none)
      else if d.orgStatus = "Affiliate" then
        match cr with
        | some r =>
          if rankIndex LEADERSHIP_MAX_RANK < rankIndex r then
            ({ m with roles := applyDemotion m.roles (some r) DEFAULT_DEMOTION_RANK },
             some ⟨m.mid, some r, DEFAULT_DEMOTION_RANK, REASON_AFFILIATE⟩)
          else (m, none)
        | none => (m, none)
      else (m, none)

/-- Function `check_member_roles`: run `memberStep` over the guild members in order,
collecting the updated member states and the demotion log. -/
def checkMemberRoles (orgHandles : List String) (members : List MemberState) :
    List MemberState × List RoleChangeEvent :=
  match members with
  | [] => ([], [])
  | m :: rest =>
    let (m', e) := memberStep orgHandles m
    let (rest', es) := checkMemberRoles orgHandles rest
    (m' :: rest', (match e with | some ev => [ev] | none => []) ++ es)

/-- An entry of the synced roster as the SPEC's data model describes it
(`MemberRecord` in spec §3): a handle together with an organization-status
`"Main"`/`"Affiliate"`.  The records actually produced by
`RSIScraper.get_organization_members` carry no organization-status field; this
type exists so that the claim, which keys the affiliate rule on
"the roster marks the handle as Affiliate", can be stated as written. -/
structure RosterEntry where
  handle : String
  orgStatus : String
deriving DecidableEq, Repr

/-- The lower-cased handle set `{m['handle'].lower() for m in org_members}` that
`check_member_roles` actually derives from the synced roster. -/
def orgHandlesOf (roster : List RosterEntry) : List String :=
  roster.map (fun r => strToLower r.handle)

/-- Reconciliation over a roster: the code's `check_member_roles` only consumes
the roster's handle set. -/
def reconcile (roster : List RosterEntry) (members : List MemberState) :
    List MemberState × List RoleChangeEvent :=
  checkMemberRoles (orgHandlesOf roster) members

/-- The roster's organization-status for a handle (first matching entry,
matched on lower-cased handles), as the claim's wording reads it. -/
def rosterStatusFor (roster : List RosterEntry) (h : String) : Option String :=
  (roster.find? (fun r => strToLower r.handle = strToLower h)).map RosterEntry.orgStatus

/-- Test that the current rank is strictly above the configured affiliate maximum. -/
def exceedsAffiliateMax (cr : Option String) : Bool :=
  match cr with
  | some r => decide (rankIndex LEADERSHIP_MAX_RANK < rankIndex r)
  | none => false

/-- Modelled from the claim's words (not from the source): the target rank of a
local member, with the affiliate rule keyed on the ROSTER's org-status for the
member's handle.  `none` means "keep the current rank". -/
def specTargetRankRoster (roster : List RosterEntry) (d : DbRow) (cr : Option String) :
    Option String :=
  if rosterStatusFor roster d.handle = none then some UNAFFILIATED_RANK
  else if rosterStatusFor roster d.handle = some "Affiliate" ∧ exceedsAffiliateMax cr then
    some DEFAULT_DEMOTION_RANK
  else cr

/-- The code's target rank for a local member: the same rule but with the
affiliate test keyed on the LOCAL table's `org_status` column, as
`check_member_roles` line 146 does. -/
def codeTargetRank (orgHandles : List String) (d : DbRow) (cr : Option String) :
    Option String :=
  if strToLower d.handle ∉ orgHandles then some UNAFFILIATED_RANK
  else if d.orgStatus = "Affiliate" ∧ exceedsAffiliateMax cr then
    some DEFAULT_DEMOTION_RANK
  else cr

/-! ## Status poller (`RSIStatusMonitorCog`)

`check_status` first consults the Redis key `'system_status'`; on a hit it
returns the cached statuses at once.  Otherwise, inside the maintenance window
it reports every monitored system as `'maintenance'` without fetching.
Otherwise it fetches, walks the page's `div.component` entries and updates the
three monitored systems, recording whether anything changed; only on a change
does it write the cache key, and append to the `'status_history'` list
(`record_status_change`, trimmed to 100 entries). -/

/-- The three monitored systems (the keys of `self.system_statuses`). -/
inductive SystemKey where
  | platform
  | persistentUniverse
  | electronicAccess
deriving DecidableEq, Repr

/-- The map `self.system_statuses`: one status string per monitored system. -/
structure Statuses where
  platform : String
  persistentUniverse : String
  electronicAccess : String
deriving DecidableEq, Repr

/-- Read one system's status. -/
def Statuses.get (s : Statuses) : SystemKey → String
  | .platform => s.platform
  | .persistentUniverse => s.persistentUniverse
  | .electronicAccess => s.electronicAccess

/-- Write one system's status. -/
def Statuses.set (s : Statuses) : SystemKey → String → Statuses
  | .platform, v => { s with platform := v }
  | .persistentUniverse, v => { s with persistentUniverse := v }
  | .electronicAccess, v => { s with electronicAccess := v }

/-- The initial `self.system_statuses` of `RSIStatusMonitorCog.__init__`. -/
def initialStatuses : Statuses :=
  { platform := "operational", persistentUniverse := "operational",
    electronicAccess := "operational" }

/-- All systems `'maintenance'`, as the maintenance-window branch produces. -/
def allMaintenance (s : Statuses) : Statuses :=
  { s with platform := "maintenance", persistentUniverse := "maintenance",
           electronicAccess := "maintenance" }

/-- One `div.component` of the status page, as the extraction loop sees it:
the text of the `span.name` child if present, and — if a
`span.component-status` child is present — its optional `data-status`
attribute. -/
structure Component where
  name : Option String
  statusSpan : Option (Option String)
deriving DecidableEq, Repr

/-- The Python name test: lower-case, strip, then substring matching against
`'platform'` / `'persistent universe'` / `'arena commander'` (an
`if`/`elif`/`elif` chain, in this order). -/
def componentSystem (rawName : String) : Option SystemKey :=
  let n := strToLower (strTrim rawName)
  if strContains n "platform" then some .platform
  else if strContains n "persistent universe" then some .persistentUniverse
  else if strContains n "arena commander" then some .electronicAccess
  else none

/-- The expression `status.get('data-status', 'unknown')`. -/
def componentStatus (attr : Option String) : String :=
  attr.getD "unknown"

/-- The body of the `for component in soup.find_all('div', class_='component')`
loop: skip components missing the name or status span, classify the name, and
update the running statuses, flagging a change whenever the parsed status
differs from the stored one. -/
def applyComponent (acc : Statuses × Bool) (c : Component) : Statuses × Bool :=
  match c.name, c.statusSpan with
  | some n, some attr =>
    match componentSystem n with
    | some k =>
      let st := componentStatus attr
      ((acc.1).set k st, acc.2 || decide ((acc.1).get k ≠ st))
    | none => acc
  | _, _ => acc

/-- The full extraction loop over the page's components. -/
def extractStatuses (mem : Statuses) (comps : List Component) : Statuses × Bool :=
  comps.foldl applyComponent (mem, false)

/-- Test that this component's parsed status differs from the last-known snapshot:
the component addresses a monitored system and carries a status different from
`mem`'s entry for that system. -/
def componentDiffers (mem : Statuses) (c : Component) : Bool :=
  match c.name, c.statusSpan with
  | some n, some attr =>
    match componentSystem n with
    | some k => decide (mem.get k ≠ componentStatus attr)
    | none => false
  | _, _ => false

/-- The poller's shared state: the Redis cache key `'system_status'`, the
in-memory `self.system_statuses`, and the `'status_history'` list
(most recent first). -/
structure StatusState where
  cache : Option Statuses
  mem : Statuses
  history : List Statuses
deriving DecidableEq, Repr

/-- Result of one `check_status` call: the state afterwards, the returned
statuses (`None` on a failed fetch), whether `make_request` was invoked, and
whether a status change was recorded (cache write + history append). -/
structure CheckResult where
  st : StatusState
  ret : Option Statuses
  fetched : Bool
  event : Bool
deriving DecidableEq, Repr

/-- Function `check_status`: cache hit returns the cached snapshot at once; otherwise the
maintenance window short-circuits to all-`'maintenance'`; otherwise fetch
(`fetch = none` models a failed `make_request`), diff every monitored system,
and only on a change persist the snapshot and append to the history. -/
def checkStatus (inMaintenance : Bool) (fetch : Option (List Component))
    (s : StatusState) : CheckResult :=
  match s.cache with
  | some snap => ⟨{ s with mem := snap }, some snap, false, false⟩
  | none =>
    if inMaintenance then
      let m := allMaintenance s.mem
      ⟨{ s with mem := m }, some m, false, false⟩
    else
      match fetch with
      | none => ⟨s, none, true, false⟩
      | some comps =>
        let r := extractStatuses s.mem comps
        if r.2 then
          ⟨{ cache := some r.1, mem := r.1, history := (r.1 :: s.history).take 100 },
           some r.1, true, true⟩
        else
          ⟨{ s with mem := r.1 }, some r.1, true, false⟩

/-! ### Maintenance window (`check_maintenance_window`)

Times of day are minutes since midnight UTC (`0 ≤ t < 1440`); Python compares
`datetime.time` values lexicographically, which on whole minutes is exactly
comparison of these numbers. -/

/-- The configured start, `datetime.strptime(MAINTENANCE_START, "%H:%M").time()`,
as minutes since midnight. -/
def maintenanceStartMinutes : Nat :=
  let p := splitAtColon MAINTENANCE_START.toList
  digitsToNat p.1 0 * 60 + digitsToNat p.2 0

/-- The expression `(datetime.combine(today, start) + timedelta(hours=DURATION)).time()`:
adding a duration and taking `.time()` wraps past midnight. -/
def maintenanceEndMinutes : Nat :=
  (maintenanceStartMinutes + MAINTENANCE_DURATION * 60) % 1440

/-- Function `check_maintenance_window`: when the end time wraps past midnight the
window is `now >= start or now <= end`, otherwise `start <= now <= end`. -/
def checkMaintenanceWindow (now : Nat) : Bool :=
  if maintenanceEndMinutes < maintenanceStartMinutes then
    decide (maintenanceStartMinutes ≤ now) || decide (now ≤ maintenanceEndMinutes)
  else
    decide (maintenanceStartMinutes ≤ now) && decide (now ≤ maintenanceEndMinutes)

/-- Function `check_status` at a given UTC time of day (minutes since midnight). -/
def checkStatusAt (now : Nat) (fetch : Option (List Component)) (s : StatusState) :
    CheckResult :=
  checkStatus (checkMaintenanceWindow now) fetch s

/-! ## Incident poller (`RSIIncidentMonitorCog`)

`get_latest_incident` builds a record from the newest feed entry: the
components are the tag terms NOT among the `STATUS_EMOJIS` keys, and the status
is the first tag term that IS one of those keys, defaulting to `'unknown'`.
`store_incident_history` runs `INSERT ... ON CONFLICT (guid) DO NOTHING`, and
`check_incidents_task` posts (with `@everyone` + pin when the lower-cased title
contains `'major'`) only when the guid differs from `self.last_incident_guid`. -/

/-- One tag of a feed entry; `term = none` models a tag without a `term`
attribute (`hasattr(tag, 'term')` fails). -/
structure FeedTag where
  term : Option String
deriving DecidableEq, Repr

/-- The fields of the newest feed entry that `get_latest_incident` reads. -/
structure FeedEntry where
  guid : String
  title : String
  description : String
  link : String
  tags : List FeedTag
deriving DecidableEq, Repr

/-- The incident dict built by `get_latest_incident` (the timestamp, which the
code sets to the wall clock, is omitted). -/
structure IncidentRecord where
  guid : String
  title : String
  description : String
  link : String
  components : List String
  status : String
deriving DecidableEq, Repr

/-- Function `get_latest_incident`'s record construction from the newest entry. -/
def incidentOfEntry (e : FeedEntry) : IncidentRecord :=
  { guid := e.guid, title := e.title, description := e.description, link := e.link,
    components := (e.tags.filterMap FeedTag.term).filter
      (fun t => ¬ t ∈ STATUS_EMOJIS_KEYS),
    status := ((e.tags.filterMap FeedTag.term).find?
      (fun t => t ∈ STATUS_EMOJIS_KEYS)).getD "unknown" }

/-- Function `store_incident_history`: `INSERT INTO incident_history ... ON CONFLICT
(guid) DO NOTHING`.  The table is the list of stored rows in insertion order;
the `Except` return records that a duplicate guid surfaces no error. -/
def storeIncidentHistory (table : List IncidentRecord) (inc : IncidentRecord) :
    Except String (List IncidentRecord) :=
  if table.any (fun r => r.guid = inc.guid) then .ok table
  else .ok (table ++ [inc])

/-- The test `"major" in incident['title'].lower()`: drives the `@everyone` mention and
the pinning of the posted message. -/
def incidentUrgencyMajor (inc : IncidentRecord) : Bool :=
  strContains (strToLower inc.title) "major"

/-- Outcome of one `check_incidents_task` tick: the updated
`self.last_incident_guid` and the emitted new-incident event, if any. -/
structure IncidentTickResult where
  lastGuid : Option String
  event : Option IncidentRecord
deriving DecidableEq, Repr

/-- Function `check_incidents_task`'s dedup gate: `if not incident or incident['guid'] ==
self.last_incident_guid: return`. -/
def checkIncidentsTick (lastGuid : Option String) (incident : Option IncidentRecord) :
    IncidentTickResult :=
  match incident with
  | none => ⟨lastGuid, none⟩
  | some inc =>
    if lastGuid = some inc.guid then ⟨lastGuid, none⟩
    else ⟨some inc.guid, some inc⟩

/-! ## Roster crawl (`RSIIntegrationCog.get_org_members`)

The crawl loops `while True` from page 1: an empty page breaks; otherwise the
page's records are appended and a page shorter than `MEMBERS_PER_PAGE` breaks;
otherwise the next page is requested.  The result is cached under the
roster-level key only when it is non-empty.  The page server is modelled as a
function from the page number to the record list that
`RSIScraper.get_organization_members` would return for it; the loop is given
fuel, and exhausted fuel (`none`) means the `while True` loop is still running
after that many iterations. -/

/-- The fields of a roster member record built by
`RSIScraper.get_organization_members` (the image URL is omitted). -/
structure MemberRecord where
  handle : String
  display : String
  rank : String
  stars : Nat
  memberRoles : List String
deriving DecidableEq, Repr

/-- The `while True` crawl loop of `get_org_members`, returning the final list
(or `none` if `fuel` iterations did not finish it) together with the number of
pages requested from the scraper. -/
def getOrgMembersGo (srv : Nat → List MemberRecord) :
    Nat → Nat → List MemberRecord → Option (List MemberRecord) × Nat
  | 0, _, _ => (none, 0)
  | fuel + 1, page, acc =>
    let pageMembers := srv page
    if pageMembers = [] then (some acc, 1)
    else if pageMembers.length < MEMBERS_PER_PAGE then (some (acc ++ pageMembers), 1)
    else
      let r := getOrgMembersGo srv fuel (page + 1) (acc ++ pageMembers)
      (r.1, r.2 + 1)

/-- The crawl from page 1 with an empty accumulator. -/
def getOrgMembersRun (srv : Nat → List MemberRecord) (fuel : Nat) :
    Option (List MemberRecord) × Nat :=
  getOrgMembersGo srv fuel 1 []

/-- One call of `get_org_members`, including the roster-level Redis key
`org_members:DRAXON`: a cache hit returns the cached list with no page fetch;
otherwise the crawl runs and the result is written to the cache only when it is
non-empty (`if members:`).  `none` means the crawl did not finish in `fuel`
iterations. -/
structure OrgMembersCall where
  members : List MemberRecord
  pageFetches : Nat
  cacheAfter : Option (List MemberRecord)
deriving DecidableEq, Repr

/-- Function `get_org_members` with the roster-level cache. -/
def getOrgMembers (cache : Option (List MemberRecord)) (srv : Nat → List MemberRecord)
    (fuel : Nat) : Option OrgMembersCall :=
  match cache with
  | some v => some ⟨v, 0, some v⟩
  | none =>
    match getOrgMembersRun srv fuel with
    | (none, _) => none
    | (some ms, c) => some ⟨ms, c, if ms = [] then none else some ms⟩

/-- The concatenation of the pages `a, a+1, ..., b` of the server. -/
def pagesConcat (srv : Nat → List MemberRecord) (a b : Nat) : List MemberRecord :=
  ((List.range' a (b + 1 - a)).map srv).flatten

/-! ## Concrete scenario data used by the testable properties -/

/-- The roster of the reconciliation example: A is a Main member, B an
Affiliate. -/
def rosterAB : List RosterEntry := [⟨"A", "Main"⟩, ⟨"B", "Affiliate"⟩]

/-- Local member A: rank Executive, in the org as a Main member. -/
def memberA : MemberState := ⟨1, false, ["Executive"], some ⟨"A", "Main"⟩⟩

/-- Local member B: rank Executive, in the org as an Affiliate. -/
def memberB : MemberState := ⟨2, false, ["Executive"], some ⟨"B", "Affiliate"⟩⟩

/-- Local member C: rank Employee, not in the roster. -/
def memberC : MemberState := ⟨3, false, ["Employee"], some ⟨"C", "Main"⟩⟩

/-- A roster that marks handle B as Affiliate. -/
def rosterBAffiliate : List RosterEntry := [⟨"B", "Affiliate"⟩]

/-- Local member B with the LOCAL table's `org_status` column reading `'Main'`
(stale relative to `rosterBAffiliate`, which marks B as Affiliate). -/
def memberBLocalMain : MemberState := ⟨2, false, ["Executive"], some ⟨"B", "Main"⟩⟩

/-- The feed entry of the incident-classification example: guid `"X1"`, title
`"Major PU outage"`, one tag with term `"major-outage"`. -/
def entryX1 : FeedEntry :=
  { guid := "X1", title := "Major PU outage", description := "details",
    link := "https://status.example/x1", tags := [⟨some "major-outage"⟩] }

/-- A status-page component reporting the Platform system as degraded. -/
def degradedComp : Component := ⟨some "Platform", some (some "degraded")⟩

/-- A server whose first page holds two records with the same handle. -/
def dupRecA : MemberRecord := ⟨"dup", "First", "Magnate", 0, []⟩

/-- A second, different record with the same handle as `dupRecA`. -/
def dupRecB : MemberRecord := ⟨"dup", "Second", "Employee", 0, []⟩

/-- Page 1 returns the two duplicate-handle records (fewer than 32, so the
crawl stops there); every other page is empty. -/
def dupServer : Nat → List MemberRecord :=
  fun p => if p = 1 then [dupRecA, dupRecB] else []

/-- A fixed member record for the always-full server. -/
def fullRec : MemberRecord := ⟨"h", "H", "Employee", 0, []⟩

/-- A server that answers every page with a full page of 32 records. -/
def fullServer : Nat → List MemberRecord :=
  fun _ => List.replicate MEMBERS_PER_PAGE fullRec

/-- A server whose every page is empty (a roster with zero member records). -/
def emptyServer : Nat → List MemberRecord := fun _ => []

/-- A server whose first page holds a single record. -/
def oneRecServer : Nat → List MemberRecord :=
  fun p => if p = 1 then [fullRec] else []

/-! # Theorems -/

/-! ## C4: maintenance-window arithmetic with midnight wraparound -/

/-- C4: with `MAINTENANCE_START = "22:00"` UTC and a 3-hour duration, a status
check at 23:30 UTC and one at 00:30 UTC are both inside the window and
short-circuit to a snapshot reporting every monitored system as
`'maintenance'` without any HTTP request, while a check at 06:00 UTC is
outside the window and performs the network fetch. -/
theorem C4_maintenance_window (s : StatusState) (fetch : Option (List Component))
    (h : s.cache = none) :
    checkMaintenanceWindow (23 * 60 + 30) = true ∧
    checkMaintenanceWindow (0 * 60 + 30) = true ∧
    checkMaintenanceWindow (6 * 60) = false ∧
    (checkStatusAt (23 * 60 + 30) fetch s).ret =
      some ⟨"maintenance", "maintenance", "maintenance"⟩ ∧
    (checkStatusAt (23 * 60 + 30) fetch s).fetched = false ∧
    (checkStatusAt (0 * 60 + 30) fetch s).ret =
      some ⟨"maintenance", "maintenance", "maintenance"⟩ ∧
    (checkStatusAt (0 * 60 + 30) fetch s).fetched = false ∧
    (checkStatusAt (6 * 60) fetch s).fetched = true := by
  obtain ⟨c, mem, hist⟩ := s
  simp only [StatusState.cache] at h
  subst h
  have h1 : checkMaintenanceWindow (23 * 60 + 30) = true := by decide
  have h2 : checkMaintenanceWindow (0 * 60 + 30) = true := by decide
  have h3 : checkMaintenanceWindow (6 * 60) = false := by decide
  refine ⟨h1, h2, h3, ?_, ?_, ?_, ?_, ?_⟩
  · simp [checkStatusAt, h1, checkStatus, allMaintenance]
  · simp [checkStatusAt, h1, checkStatus]
  · simp [checkStatusAt, h2, checkStatus, allMaintenance]
  · simp [checkStatusAt, h2, checkStatus]
  · simp only [checkStatusAt, h3, checkStatus]
    cases fetch with
    | none => simp
    | some comps =>
      simp only [Bool.false_eq_true, if_false]
      split <;> rfl

/-- Witness for C4 at the concrete poller state with an empty cache. -/
theorem C4_witness :
    (⟨none, initialStatuses, []⟩ : StatusState).cache = none ∧
    (checkStatusAt (23 * 60 + 30) none ⟨none, initialStatuses, []⟩).ret =
      some ⟨"maintenance", "maintenance", "maintenance"⟩ ∧
    (checkStatusAt (6 * 60) none ⟨none, initialStatuses, []⟩).fetched = true :=
  ⟨rfl, (C4_maintenance_window ⟨none, initialStatuses, []⟩ none rfl).2.2.2.1,
   (C4_maintenance_window ⟨none, initialStatuses, []⟩ none rfl).2.2.2.2.2.2.2⟩

/-! ## C10: cache-hit precedence over the maintenance window -/

/-- C10: whenever the status cache holds a snapshot, `check_status` returns
that cached snapshot immediately, before the maintenance-window test, with no
network request and no change event — so during the maintenance window a cache
hit yields the previously cached (possibly non-maintenance) statuses rather
than an all-`'maintenance'` snapshot. -/
theorem C10_cache_hit_precedence (snap : Statuses) (s : StatusState)
    (inMaintenance : Bool) (fetch : Option (List Component)) (h : s.cache = some snap) :
    checkStatus inMaintenance fetch s =
      ⟨{ s with mem := snap }, some snap, false, false⟩ := by
  obtain ⟨c, mem, hist⟩ := s
  simp only [StatusState.cache] at h
  subst h
  rfl

/-- Witness for C10: a cache hit during the maintenance window returns the
cached all-operational snapshot, not an all-maintenance one. -/
theorem C10_witness :
    checkStatus true none ⟨some initialStatuses, initialStatuses, []⟩ =
      ⟨⟨some initialStatuses, initialStatuses, []⟩, some initialStatuses, false, false⟩ ∧
    initialStatuses.platform ≠ "maintenance" :=
  ⟨C10_cache_hit_precedence initialStatuses ⟨some initialStatuses, initialStatuses, []⟩
      true none rfl,
   by decide⟩

/-! ## C5: incident storage and emission are idempotent on guid -/

/-- C5: inserting an incident with an already-stored guid is a silent no-op
surfacing no error; inserting a record with a fresh guid twice leaves exactly
one stored record; and a tick whose latest feed entry has the same guid as the
last-seen guid emits no new-incident event. -/
theorem C5_incident_dedup (table : List IncidentRecord) (inc : IncidentRecord) :
    (table.any (fun r => r.guid = inc.guid) = true →
      storeIncidentHistory table inc = .ok table) ∧
    (table.any (fun r => r.guid = inc.guid) = false →
      storeIncidentHistory table inc = .ok (table ++ [inc]) ∧
      storeIncidentHistory (table ++ [inc]) inc = .ok (table ++ [inc]) ∧
      (table ++ [inc]).countP (fun r => r.guid == inc.guid) = 1) ∧
    (checkIncidentsTick (some inc.guid) (some inc)).event = none := by
  refine ⟨fun hdup => ?_, fun hfresh => ?_, ?_⟩
  · simp only [storeIncidentHistory, hdup, if_true]
  · have hstore : storeIncidentHistory table inc = .ok (table ++ [inc]) := by
      simp only [storeIncidentHistory, hfresh]
      rfl
    have hagain : (table ++ [inc]).any (fun r => r.guid = inc.guid) = true := by
      simp
    have hcount : (table ++ [inc]).countP (fun r => r.guid == inc.guid) = 1 := by
      rw [List.countP_append]
      have hz : table.countP (fun r => r.guid == inc.guid) = 0 := by
        rw [List.countP_eq_zero]
        intro r hr
        have := List.any_eq_false.mp hfresh r hr
        simpa using this
      simp [hz]
    exact ⟨hstore, by simp only [storeIncidentHistory, hagain, if_true], hcount⟩
  · simp [checkIncidentsTick]

/-- Witness for C5 at the guid `"X1"`: two inserts yield one stored record and
no error, and a tick re-seeing guid `"X1"` emits nothing. -/
theorem C5_witness :
    storeIncidentHistory [] (incidentOfEntry entryX1) =
      .ok [incidentOfEntry entryX1] ∧
    storeIncidentHistory [incidentOfEntry entryX1] (incidentOfEntry entryX1) =
      .ok [incidentOfEntry entryX1] ∧
    [incidentOfEntry entryX1].countP (fun r => r.guid == "X1") = 1 ∧
    (checkIncidentsTick (some "X1") (some (incidentOfEntry entryX1))).event = none := by
  obtain ⟨-, h2, h3⟩ := C5_incident_dedup [] (incidentOfEntry entryX1)
  obtain ⟨e1, e2, e3⟩ := h2 (by decide)
  exact ⟨e1, e2, e3, h3⟩

/-! ## C6: incident classification -/

/-- C6 counterexample: the entry with guid `"X1"`, title `"Major PU outage"`
and status tag `"major-outage"` is NOT stored with status `"major-outage"`.
`"major-outage"` is not among the `STATUS_EMOJIS` keys, so the tag lands in
the component list and the stored status falls back to `"unknown"`. -/
theorem C6_counterexample :
    (incidentOfEntry entryX1).status = "unknown" ∧
    (incidentOfEntry entryX1).status ≠ "major-outage" ∧
    (incidentOfEntry entryX1).components = ["major-outage"] := by decide

/-- C6 (amended): the stored status is the first tag term among the six
recognised statuses (`operational`/`degraded`/`partial`/`major`/`maintenance`/
`unknown`), with fallback `"unknown"` when no tag term is recognised;
unrecognised terms such as `"major-outage"` become affected components.  The
entry with guid `"X1"` and title `"Major PU outage"` is therefore stored with
status `"unknown"`, and its emitted event carries urgency = major because the
urgency test matches `"major"` in the lower-cased title. -/
theorem C6_incident_classification_amended (e : FeedEntry) :
    ((∀ t ∈ e.tags.filterMap FeedTag.term, t ∉ STATUS_EMOJIS_KEYS) →
      (incidentOfEntry e).status = "unknown") ∧
    (∀ t, (e.tags.filterMap FeedTag.term).find? (fun t => t ∈ STATUS_EMOJIS_KEYS) = some t →
      (incidentOfEntry e).status = t ∧ t ∈ STATUS_EMOJIS_KEYS) ∧
    (incidentOfEntry entryX1).status = "unknown" ∧
    (incidentOfEntry entryX1).components = ["major-outage"] ∧
    storeIncidentHistory [] (incidentOfEntry entryX1) = .ok [incidentOfEntry entryX1] ∧
    (checkIncidentsTick none (some (incidentOfEntry entryX1))).event =
      some (incidentOfEntry entryX1) ∧
    incidentUrgencyMajor (incidentOfEntry entryX1) = true := by
  refine ⟨fun hnone => ?_, fun t hfind => ?_, by decide, by decide, rfl, by decide,
    by decide⟩
  · have : (e.tags.filterMap FeedTag.term).find? (fun t => t ∈ STATUS_EMOJIS_KEYS) = none := by
      rw [List.find?_eq_none]
      intro t ht
      simpa using hnone t ht
    simp [incidentOfEntry, this]
  · have hmem : t ∈ STATUS_EMOJIS_KEYS := by
      have := List.find?_some hfind
      simpa using this
    exact ⟨by simp [incidentOfEntry, hfind], hmem⟩

/-- Witness for C6 (amended) at the example entry: every tag term of an entry
tagged only `"major-outage"` is unrecognised, and the stored status is
`"unknown"`. -/
theorem C6_witness :
    (∀ t ∈ entryX1.tags.filterMap FeedTag.term, t ∉ STATUS_EMOJIS_KEYS) ∧
    (incidentOfEntry entryX1).status = "unknown" :=
  ⟨by decide, (C6_incident_classification_amended entryX1).1 (by decide)⟩

/-! ## C2: HTTP fetch retry policy -/

/-- The scraper loop makes at most `fuel` further attempts. -/
theorem scraperGo_attempts_le (srv : Nat → AttemptResult) (jitter : Nat → ℚ) :
    ∀ fuel a, (scraperGo srv jitter fuel a).attempts ≤ a + fuel := by
  intro fuel
  induction fuel with
  | zero => intro a; simp [scraperGo]
  | succ n ih =>
    intro a
    simp only [scraperGo]
    cases h : srv a with
    | httpStatus c =>
      by_cases h200 : c = 200
      · simp only [h200, if_true]
        omega
      · by_cases hret : c ∈ retryStatuses
        · simp only [h200, hret, if_false, if_true]
          have := ih (a + 1)
          omega
        · simp only [h200, hret, if_false]
          omega
    | timeout =>
      have := ih (a + 1)
      simpa using by omega
    | connError =>
      have := ih (a + 1)
      simpa using by omega

/-- Every attempt of the scraper loop that was followed by a further attempt
had a retryable outcome (timeout, connection error, or transient status). -/
theorem scraperGo_retryable (srv : Nat → AttemptResult) (jitter : Nat → ℚ) :
    ∀ fuel a k, a ≤ k → k + 1 < (scraperGo srv jitter fuel a).attempts →
      retryable (srv k) = true := by
  intro fuel
  induction fuel with
  | zero =>
    intro a k hak hk
    simp only [scraperGo] at hk
    omega
  | succ n ih =>
    intro a k hak hk
    simp only [scraperGo] at hk
    rcases Nat.eq_or_lt_of_le hak with heq | hlt
    · subst heq
      cases h : srv a with
      | httpStatus c =>
        rw [h] at hk
        by_cases h200 : c = 200
        · simp only [h200, if_true] at hk
          omega
        · by_cases hret : c ∈ retryStatuses
          · simp [retryable, h, hret]
          · simp only [h200, hret, if_false] at hk
            omega
      | timeout => simp [retryable, h]
      | connError => simp [retryable, h]
    · cases h : srv a with
      | httpStatus c =>
        rw [h] at hk
        by_cases h200 : c = 200
        · simp only [h200, if_true] at hk
          omega
        · by_cases hret : c ∈ retryStatuses
          · simp only [h200, hret, if_false, if_true] at hk
            exact ih (a + 1) k hlt hk
          · simp only [h200, hret, if_false] at hk
            omega
      | timeout =>
        rw [h] at hk
        exact ih (a + 1) k hlt (by simpa using hk)
      | connError =>
        rw [h] at hk
        exact ih (a + 1) k hlt (by simpa using hk)

/-- Every sleep of the scraper loop is `min(2 ** k + jitter, 10)` for the retry
attempt `k ≥ 1` it precedes. -/
theorem scraperGo_sleeps (srv : Nat → AttemptResult) (jitter : Nat → ℚ) :
    ∀ fuel a, ∀ s ∈ (scraperGo srv jitter fuel a).sleeps,
      ∃ k, 1 ≤ k ∧ s = backoffSleep k (jitter k) := by
  intro fuel
  induction fuel with
  | zero => intro a s hs; simp [scraperGo] at hs
  | succ n ih =>
    intro a s hs
    simp only [scraperGo] at hs
    have hpre : ∀ s, s ∈ (if a = 0 then ([] : List ℚ) else [backoffSleep a (jitter a)]) →
        ∃ k, 1 ≤ k ∧ s = backoffSleep k (jitter k) := by
      intro s hs
      by_cases h0 : a = 0
      · simp [h0] at hs
      · simp only [h0, if_false, List.mem_singleton] at hs
        exact ⟨a, by omega, hs⟩
    cases h : srv a with
    | httpStatus c =>
      rw [h] at hs
      by_cases h200 : c = 200
      · simp only [h200, if_true] at hs
        exact hpre s hs
      · by_cases hret : c ∈ retryStatuses
        · simp only [h200, hret, if_false, if_true, List.mem_append] at hs
          rcases hs with hs | hs
          · exact hpre s hs
          · exact ih (a + 1) s hs
        · simp only [h200, hret, if_false] at hs
          exact hpre s hs
    | timeout =>
      rw [h] at hs
      simp only [List.mem_append] at hs
      rcases hs with hs | hs
      · exact hpre s hs
      · exact ih (a + 1) s hs
    | connError =>
      rw [h] at hs
      simp only [List.mem_append] at hs
      rcases hs with hs | hs
      · exact hpre s hs
      · exact ih (a + 1) s hs

/-- C2 counterexample: the status monitor's `make_request` (one of the two
fetch implementations the claim covers) does NOT fail after exactly 1 attempt
on a 404 response — it retries any non-200 status and makes 3 attempts. -/
theorem C2_counterexample :
    (monitorMakeRequest (fun _ => .httpStatus 404)).attempts = 3 ∧
    (monitorMakeRequest (fun _ => .httpStatus 404)).attempts ≠ 1 := by decide

/-- C2 (amended): the claimed policy holds for `RSIScraper._make_request`
(maximum 5 attempts): it retries only on a timeout/connection failure or a
status in {408, 429, 500, 502, 503, 504}, sleeps `min(2 ** k + jitter, 10)`
before each retry attempt `k`, answers 503, 503, 200 with the successful
payload after exactly 3 attempts, and fails a 404 after exactly 1 attempt.
The status monitor's `make_request`, however, retries on ANY non-200 outcome,
so a 404 there fails only after its 3 attempts. -/
theorem C2_retry_policy_amended (srv : Nat → AttemptResult) (jitter : Nat → ℚ) :
    (scraperMakeRequest srv jitter).attempts ≤ maxRetries ∧
    (∀ k, k + 1 < (scraperMakeRequest srv jitter).attempts → retryable (srv k) = true) ∧
    (∀ c, srv 0 = .httpStatus c → c ≠ 200 → c ∉ retryStatuses →
      scraperMakeRequest srv jitter = ⟨none, 1, []⟩) ∧
    (∀ s ∈ (scraperMakeRequest srv jitter).sleeps,
      ∃ k, 1 ≤ k ∧ s = backoffSleep k (jitter k)) ∧
    scraperMakeRequest (fun a => if a < 2 then .httpStatus 503 else .httpStatus 200) jitter =
      ⟨some 2, 3, [backoffSleep 1 (jitter 1), backoffSleep 2 (jitter 2)]⟩ ∧
    scraperMakeRequest (fun _ => .httpStatus 404) jitter = ⟨none, 1, []⟩ ∧
    monitorMakeRequest (fun _ => .httpStatus 404) = ⟨none, 3, [1, 2]⟩ := by
  refine ⟨?_, ?_, ?_, ?_, rfl, rfl, by decide⟩
  · simpa [scraperMakeRequest] using scraperGo_attempts_le srv jitter maxRetries 0
  · intro k hk
    exact scraperGo_retryable srv jitter maxRetries 0 k (Nat.zero_le k) hk
  · intro c h h200 hset
    simp only [scraperMakeRequest, maxRetries, scraperGo, h]
    simp [h200, hset]
  · intro s hs
    exact scraperGo_sleeps srv jitter maxRetries 0 s hs

/-- Witness for C2 (amended): the scraper fetch fails a first-attempt 404
after exactly 1 attempt with no sleeps. -/
theorem C2_witness :
    scraperMakeRequest (fun _ => AttemptResult.httpStatus 404) (fun _ => (3 : ℚ) / 10) =
      ⟨none, 1, []⟩ :=
  (C2_retry_policy_amended (fun _ => .httpStatus 404) (fun _ => (3 : ℚ) / 10)).2.2.1 404 rfl
    (by decide) (by decide)

/-! ## C3: status-poll change detection is a filtered diff -/

/-- Writing back a system's own status leaves the snapshot unchanged. -/
theorem Statuses.set_get (m : Statuses) (k : SystemKey) : m.set k (m.get k) = m := by
  cases m
  cases k <;> rfl

/-- One extraction step keeps the changed flag set. -/
theorem applyComponent_snd_true (m : Statuses) (c : Component) :
    (applyComponent (m, true) c).2 = true := by
  rcases c with ⟨name, span⟩
  cases name with
  | none => rfl
  | some n =>
    cases span with
    | none => rfl
    | some attr =>
      simp only [applyComponent]
      cases componentSystem n <;> simp

/-- The extraction loop keeps the changed flag set. -/
theorem foldl_applyComponent_true (comps : List Component) :
    ∀ m, (comps.foldl applyComponent (m, true)).2 = true := by
  induction comps with
  | nil => intro m; rfl
  | cons c rest ih =>
    intro m
    rw [List.foldl_cons]
    rcases hp : applyComponent (m, true) c with ⟨x, b⟩
    have hb := applyComponent_snd_true m c
    rw [hp] at hb
    subst hb
    exact ih x

/-- The changed flag computed by the extraction loop holds exactly when some
component's parsed status differs from the snapshot the loop started from. -/
theorem extractStatuses_snd (comps : List Component) :
    ∀ m, (extractStatuses m comps).2 = comps.any (componentDiffers m) := by
  induction comps with
  | nil => intro m; rfl
  | cons c rest ih =>
    intro m
    rcases c with ⟨name, span⟩
    cases name with
    | none => simpa [extractStatuses, componentDiffers, applyComponent] using ih m
    | some n =>
      cases span with
      | none => simpa [extractStatuses, componentDiffers, applyComponent] using ih m
      | some attr =>
        simp only [extractStatuses, List.foldl_cons, List.any_cons, componentDiffers,
          applyComponent]
        cases hk : componentSystem n with
        | none => simpa [extractStatuses] using ih m
        | some k =>
          by_cases hst : m.get k = componentStatus attr
          · have hset : m.set k (componentStatus attr) = m := by
              rw [← hst]
              exact Statuses.set_get m k
            simp only [hst, hset]
            simpa [extractStatuses] using ih m
          · simp [hst, foldl_applyComponent_true rest (m.set k (componentStatus attr))]

/-- When no component's parsed status differs, the extraction loop returns the
original snapshot with the changed flag unset. -/
theorem extractStatuses_of_no_diff (comps : List Component) :
    ∀ m, comps.any (componentDiffers m) = false → extractStatuses m comps = (m, false) := by
  induction comps with
  | nil => intro m _; rfl
  | cons c rest ih =>
    intro m hany
    rw [List.any_cons] at hany
    have hc : componentDiffers m c = false := by
      cases h : componentDiffers m c
      · rfl
      · rw [h] at hany
        simp at hany
    have hrest : rest.any (componentDiffers m) = false := by
      cases h : rest.any (componentDiffers m)
      · rfl
      · rw [h] at hany
        simp at hany
    rcases c with ⟨name, span⟩
    cases name with
    | none => simpa [extractStatuses, applyComponent] using ih m hrest
    | some n =>
      cases span with
      | none => simpa [extractStatuses, applyComponent] using ih m hrest
      | some attr =>
        simp only [componentDiffers] at hc
        simp only [extractStatuses, List.foldl_cons, applyComponent]
        cases hk : componentSystem n with
        | none => simpa [extractStatuses] using ih m hrest
        | some k =>
          rw [hk] at hc
          have hst : m.get k = componentStatus attr := by
            by_contra hne
            simp [hne] at hc
          have hset : m.set k (componentStatus attr) = m := by
            rw [← hst]
            exact Statuses.set_get m k
          simp only [hst, hset]
          simpa [extractStatuses] using ih m hrest

/-- C3: on a tick outside the maintenance window with no cached snapshot, the
poller signals a status change — persisting the snapshot to the cache and
appending to the history — exactly when some monitored system's parsed status
differs from the last-known snapshot; with no difference the state is left
untouched and no event is emitted; and a second tick on the resulting state
with the same page content never emits a second event. -/
theorem C3_status_change_detection (s : StatusState) (comps : List Component)
    (h : s.cache = none) :
    ((checkStatus false (some comps) s).event = true ↔
      comps.any (componentDiffers s.mem) = true) ∧
    ((checkStatus false (some comps) s).event = true →
      (checkStatus false (some comps) s).st.cache =
        some (checkStatus false (some comps) s).st.mem ∧
      (checkStatus false (some comps) s).st.history =
        ((checkStatus false (some comps) s).st.mem :: s.history).take 100) ∧
    ((checkStatus false (some comps) s).event = false →
      (checkStatus false (some comps) s).st = s ∧
      (checkStatus false (some comps) s).ret = some s.mem) ∧
    (checkStatus false (some comps) ((checkStatus false (some comps) s).st)).event
      = false := by
  obtain ⟨c, mem, hist⟩ := s
  simp only [StatusState.cache] at h
  subst h
  have hsnd := extractStatuses_snd comps mem
  rcases hx : extractStatuses mem comps with ⟨m', ch⟩
  rw [hx] at hsnd
  simp only [StatusState.mem]
  cases ch with
  | true =>
    have hC : checkStatus false (some comps) ⟨none, mem, hist⟩ =
        ⟨⟨some m', m', (m' :: hist).take 100⟩, some m', true, true⟩ := by
      simp [checkStatus, hx]
    rw [hC]
    exact ⟨by simpa using hsnd.symm, fun _ => ⟨rfl, rfl⟩,
      fun hfalse => by simp at hfalse, rfl⟩
  | false =>
    have hany : comps.any (componentDiffers mem) = false := hsnd.symm
    have hfst : extractStatuses mem comps = (mem, false) :=
      extractStatuses_of_no_diff comps mem hany
    rw [hfst] at hx
    injection hx with hm _
    subst hm
    have hC : checkStatus false (some comps) ⟨none, mem, hist⟩ =
        ⟨⟨none, mem, hist⟩, some mem, true, false⟩ := by
      simp [checkStatus, hfst]
    rw [hC]
    exact ⟨by simp [hany], fun htrue => by simp at htrue, fun _ => ⟨rfl, rfl⟩,
      by rw [hC]⟩

/-- Witness for C3 at a concrete degraded-platform page: the first tick from
an empty cache emits the event, the second tick on the resulting state does
not. -/
theorem C3_witness :
    (checkStatus false (some [degradedComp]) ⟨none, initialStatuses, []⟩).event = true ∧
    (checkStatus false (some [degradedComp])
      ((checkStatus false (some [degradedComp]) ⟨none, initialStatuses, []⟩).st)).event
        = false := by
  have h := C3_status_change_detection ⟨none, initialStatuses, []⟩ [degradedComp] rfl
  exact ⟨h.1.mpr (by decide), h.2.2.2⟩

/-! ## C1: reconciliation contract -/

/-- C1 counterexample: when the ROSTER marks handle B as Affiliate but the
local table's `org_status` column reads `'Main'`, the claim's roster-keyed rule
sets B's target rank to Employee — different from B's current rank Executive,
so the claim demands a rank-change — yet `check_member_roles` emits no event,
because the code reads the affiliate flag from the local table, not from the
roster. -/
theorem C1_counterexample :
    specTargetRankRoster rosterBAffiliate ⟨"B", "Main"⟩ (currentRank memberBLocalMain.roles) =
      some "Employee" ∧
    currentRank memberBLocalMain.roles = some "Executive" ∧
    (reconcile rosterBAffiliate [memberBLocalMain]).2 = [] := by decide

/-- The demotion-log entry of one member-loop iteration, written as a single
conditional on the handle-membership, affiliate and rank tests. -/
theorem memberStep_event (oh : List String) (m : MemberState) (d : DbRow)
    (hbot : m.bot = false) (hdb : m.db = some d) :
    (memberStep oh m).2 =
      (if strToLower d.handle ∉ oh then
        (if currentRank m.roles ≠ some UNAFFILIATED_RANK then
           some ⟨m.mid, currentRank m.roles, UNAFFILIATED_RANK, REASON_NOT_IN_ORG⟩
         else none)
       else if d.orgStatus = "Affiliate" ∧ exceedsAffiliateMax (currentRank m.roles) then
         some ⟨m.mid, currentRank m.roles, DEFAULT_DEMOTION_RANK, REASON_AFFILIATE⟩
       else none) := by
  simp only [memberStep, hbot, Bool.false_eq_true, if_false, hdb]
  by_cases hin : strToLower d.handle ∈ oh
  · simp only [hin, not_true_eq_false, if_false]
    by_cases haff : d.orgStatus = "Affiliate"
    · simp only [haff, if_true, true_and]
      cases hcr : currentRank m.roles with
      | none => simp [exceedsAffiliateMax]
      | some r =>
        by_cases hidx : rankIndex LEADERSHIP_MAX_RANK < rankIndex r
        · simp [hidx, exceedsAffiliateMax]
        · simp [hidx, exceedsAffiliateMax]
    · simp [haff]
  · simp only [hin, not_false_eq_true, if_true]
    by_cases hscr : currentRank m.roles = some UNAFFILIATED_RANK
    · simp [hscr]
    · simp [hscr]

/-- When the current rank sits strictly above the affiliate maximum, the
default demotion rank differs from it. -/
theorem default_ne_of_exceeds (cr : Option String) (h : exceedsAffiliateMax cr = true) :
    some DEFAULT_DEMOTION_RANK ≠ cr := by
  cases cr with
  | none => simp
  | some r =>
    simp only [exceedsAffiliateMax, decide_eq_true_eq] at h
    intro hc
    rw [Option.some.injEq] at hc
    rw [← hc] at h
    revert h
    decide

/-- C1 (amended): a rank-change is produced for exactly the local members
whose target rank differs from their current rank, where the target rank is
the configured unaffiliated rank (Screening, reason `not_in_org`) when the
member's stored handle is absent from the roster's handle set, the configured
default-demotion rank (Employee, reason `affiliate`) when the LOCAL membership
table's `org_status` column — not the roster — marks the member as Affiliate
and the current rank sits strictly above the affiliate maximum (Team Leader),
and otherwise the current rank.  On the roster {A, B} with local members
A (Executive, Main), B (Executive, Affiliate in the local table) and C
(Employee, absent), exactly the two claimed events are emitted, and re-running
after the demotions have been applied emits zero events. -/
theorem C1_reconciliation_amended (roster : List RosterEntry) :
    (∀ (m : MemberState) (d : DbRow), m.bot = false → m.db = some d →
      ((memberStep (orgHandlesOf roster) m).2 ≠ none ↔
        codeTargetRank (orgHandlesOf roster) d (currentRank m.roles) ≠
          currentRank m.roles)) ∧
    (∀ (m : MemberState) (d : DbRow) (ev : RoleChangeEvent), m.bot = false →
      m.db = some d → (memberStep (orgHandlesOf roster) m).2 = some ev →
      some ev.newRank = codeTargetRank (orgHandlesOf roster) d (currentRank m.roles) ∧
      ev.oldRank = currentRank m.roles ∧ ev.mid = m.mid ∧
      (ev.reason = REASON_NOT_IN_ORG ↔ strToLower d.handle ∉ orgHandlesOf roster) ∧
      (ev.reason = REASON_AFFILIATE ↔ strToLower d.handle ∈ orgHandlesOf roster)) ∧
    reconcile rosterAB [memberA, memberB, memberC] =
      ([memberA, ⟨2, false, ["Employee"], some ⟨"B", "Affiliate"⟩⟩,
        ⟨3, false, ["Screening"], some ⟨"C", "Main"⟩⟩],
       [⟨2, some "Executive", "Employee", REASON_AFFILIATE⟩,
        ⟨3, some "Employee", "Screening", REASON_NOT_IN_ORG⟩]) ∧
    (reconcile rosterAB (reconcile rosterAB [memberA, memberB, memberC]).1).2 = [] := by
  refine ⟨?_, ?_, by decide, by decide⟩
  · intro m d hbot hdb
    rw [memberStep_event (orgHandlesOf roster) m d hbot hdb]
    simp only [codeTargetRank]
    by_cases hin : strToLower d.handle ∈ orgHandlesOf roster
    · simp only [hin, not_true_eq_false, if_false]
      by_cases hcond : d.orgStatus = "Affiliate" ∧ exceedsAffiliateMax (currentRank m.roles)
      · simp only [hcond, if_true]
        have := default_ne_of_exceeds (currentRank m.roles) hcond.2
        simp [this]
      · simp [hcond]
    · simp only [hin, not_false_eq_true, if_true]
      by_cases hscr : currentRank m.roles = some UNAFFILIATED_RANK
      · simp [hscr]
      · simp only [hscr, ne_eq, not_false_eq_true, if_true]
        constructor
        · intro _ heq
          exact hscr heq.symm
        · intro _ h
          exact Option.some_ne_none _ h
  · intro m d ev hbot hdb hev
    rw [memberStep_event (orgHandlesOf roster) m d hbot hdb] at hev
    simp only [codeTargetRank]
    by_cases hin : strToLower d.handle ∈ orgHandlesOf roster
    · simp only [hin, not_true_eq_false, if_false] at hev ⊢
      by_cases hcond : d.orgStatus = "Affiliate" ∧ exceedsAffiliateMax (currentRank m.roles)
      · rw [if_pos hcond] at hev
        rw [if_pos hcond]
        injection hev with h
        subst h
        exact ⟨rfl, rfl, rfl,
          ⟨fun habs => absurd habs (by decide : REASON_AFFILIATE ≠ REASON_NOT_IN_ORG),
           fun habs => False.elim habs⟩,
          ⟨fun _ => trivial, fun _ => rfl⟩⟩
      · simp [hcond] at hev
    · simp only [hin, not_false_eq_true, if_true] at hev ⊢
      by_cases hscr : currentRank m.roles = some UNAFFILIATED_RANK
      · simp [hscr] at hev
      · rw [if_pos hscr] at hev
        injection hev with h
        subst h
        exact ⟨rfl, rfl, rfl, ⟨fun _ => trivial, fun _ => rfl⟩,
          ⟨fun habs => absurd habs (by decide : REASON_NOT_IN_ORG ≠ REASON_AFFILIATE),
           fun habs => False.elim habs⟩⟩

/-- Witness for C1 (amended) at local member B: the event test applies and the
iff yields that B's demotion event is emitted. -/
theorem C1_witness :
    memberB.bot = false ∧ memberB.db = some ⟨"B", "Affiliate"⟩ ∧
    (memberStep (orgHandlesOf rosterAB) memberB).2 ≠ none :=
  ⟨rfl, rfl,
   ((C1_reconciliation_amended rosterAB).1 memberB ⟨"B", "Affiliate"⟩ rfl rfl).mpr
     (by decide)⟩

/-! ## C7, C8, C9: the roster crawl -/

/-- Splitting off the first page of a page range. -/
theorem pagesConcat_cons (srv : Nat → List MemberRecord) (a b : Nat) (h : a ≤ b) :
    pagesConcat srv a b = srv a ++ pagesConcat srv (a + 1) b := by
  unfold pagesConcat
  have h1 : b + 1 - a = (b - a) + 1 := by omega
  have h2 : b + 1 - (a + 1) = b - a := by omega
  rw [h1, h2, List.range'_succ a (b - a) 1]
  simp

/-- A one-page range is just that page. -/
theorem pagesConcat_self (srv : Nat → List MemberRecord) (a : Nat) :
    pagesConcat srv a a = srv a := by
  unfold pagesConcat
  simp

/-- When the crawl loop finishes, it finished at the FIRST page `n` with fewer
than `MEMBERS_PER_PAGE` records, having fetched exactly the pages up to `n` and
returned the accumulator extended by the concatenation of those pages. -/
theorem getOrgMembersGo_characterize (srv : Nat → List MemberRecord) :
    ∀ fuel page acc res, (getOrgMembersGo srv fuel page acc).1 = some res →
      ∃ n, page ≤ n ∧ (∀ q, page ≤ q → q < n → ¬ (srv q).length < MEMBERS_PER_PAGE) ∧
        (srv n).length < MEMBERS_PER_PAGE ∧ res = acc ++ pagesConcat srv page n ∧
        (getOrgMembersGo srv fuel page acc).2 = n + 1 - page := by
  intro fuel
  induction fuel with
  | zero => intro page acc res h; simp [getOrgMembersGo] at h
  | succ f ih =>
    intro page acc res h
    by_cases hemp : srv page = []
    · have hres : res = acc := by
        simp [getOrgMembersGo, hemp] at h
        exact h.symm
      subst hres
      refine ⟨page, le_refl _, fun q h1 h2 => absurd (lt_of_le_of_lt h1 h2) (lt_irrefl _),
        ?_, ?_, ?_⟩
      · simp [hemp, MEMBERS_PER_PAGE]
      · rw [pagesConcat_self, hemp, List.append_nil]
      · simp [getOrgMembersGo, hemp]
    · by_cases hshort : (srv page).length < MEMBERS_PER_PAGE
      · have hres : res = acc ++ srv page := by
          simp [getOrgMembersGo, hemp, hshort] at h
          exact h.symm
        subst hres
        refine ⟨page, le_refl _,
          fun q h1 h2 => absurd (lt_of_le_of_lt h1 h2) (lt_irrefl _), hshort,
          by rw [pagesConcat_self], ?_⟩
        simp [getOrgMembersGo, hemp, hshort]
      · have hgo : getOrgMembersGo srv (f + 1) page acc =
            ((getOrgMembersGo srv f (page + 1) (acc ++ srv page)).1,
             (getOrgMembersGo srv f (page + 1) (acc ++ srv page)).2 + 1) := by
          simp [getOrgMembersGo, hemp, hshort]
        rw [hgo] at h
        obtain ⟨n, h1, h2, h3, h4, h5⟩ := ih (page + 1) (acc ++ srv page) res h
        refine ⟨n, by omega, ?_, h3, ?_, ?_⟩
        · intro q hq1 hq2
          rcases Nat.eq_or_lt_of_le hq1 with heq | hlt
          · subst heq
            exact hshort
          · exact h2 q hlt hq2
        · rw [h4, List.append_assoc, ← pagesConcat_cons srv page n (by omega)]
        · rw [hgo]
          simp only []
          omega

/-- One short page anywhere ahead makes the crawl loop finish, given fuel
reaching it. -/
theorem getOrgMembersGo_terminates (srv : Nat → List MemberRecord) (n : Nat)
    (hn : (srv n).length < MEMBERS_PER_PAGE) :
    ∀ fuel page acc, page ≤ n → n + 1 ≤ page + fuel →
      ((getOrgMembersGo srv fuel page acc).1).isSome = true := by
  intro fuel
  induction fuel with
  | zero => intro page acc h1 h2; omega
  | succ f ih =>
    intro page acc h1 h2
    by_cases hemp : srv page = []
    · simp [getOrgMembersGo, hemp]
    · by_cases hshort : (srv page).length < MEMBERS_PER_PAGE
      · simp [getOrgMembersGo, hemp, hshort]
      · have hne : page ≠ n := fun he => hshort (he ▸ hn)
        have hgo : getOrgMembersGo srv (f + 1) page acc =
            ((getOrgMembersGo srv f (page + 1) (acc ++ srv page)).1,
             (getOrgMembersGo srv f (page + 1) (acc ++ srv page)).2 + 1) := by
          simp [getOrgMembersGo, hemp, hshort]
        rw [hgo]
        exact ih (page + 1) (acc ++ srv page) (by omega) (by omega)

/-- Against the always-full server the crawl loop never finishes. -/
theorem fullServer_runs_forever :
    ∀ fuel page acc, (getOrgMembersGo fullServer fuel page acc).1 = none := by
  intro fuel
  induction fuel with
  | zero => intro page acc; rfl
  | succ f ih =>
    intro page acc
    have hne : fullServer page ≠ [] := by simp [fullServer, MEMBERS_PER_PAGE]
    have hfull : ¬ (fullServer page).length < MEMBERS_PER_PAGE := by
      simp [fullServer]
    have hgo : getOrgMembersGo fullServer (f + 1) page acc =
        ((getOrgMembersGo fullServer f (page + 1) (acc ++ fullServer page)).1,
         (getOrgMembersGo fullServer f (page + 1) (acc ++ fullServer page)).2 + 1) := by
      simp [getOrgMembersGo, hne, hfull]
    rw [hgo]
    exact ih (page + 1) (acc ++ fullServer page)

/-- Against the always-full server the crawl fetches one page per loop
iteration, without bound. -/
theorem fullServer_fetches :
    ∀ fuel page acc, (getOrgMembersGo fullServer fuel page acc).2 = fuel := by
  intro fuel
  induction fuel with
  | zero => intro page acc; rfl
  | succ f ih =>
    intro page acc
    have hne : fullServer page ≠ [] := by simp [fullServer, MEMBERS_PER_PAGE]
    have hfull : ¬ (fullServer page).length < MEMBERS_PER_PAGE := by
      simp [fullServer]
    have hgo : getOrgMembersGo fullServer (f + 1) page acc =
        ((getOrgMembersGo fullServer f (page + 1) (acc ++ fullServer page)).1,
         (getOrgMembersGo fullServer f (page + 1) (acc ++ fullServer page)).2 + 1) := by
      simp [getOrgMembersGo, hne, hfull]
    rw [hgo]
    simp only []
    rw [ih (page + 1) (acc ++ fullServer page)]

/-- A finished crawl made at least one page fetch. -/
theorem getOrgMembersGo_fetch_pos (srv : Nat → List MemberRecord) :
    ∀ fuel page acc res, (getOrgMembersGo srv fuel page acc).1 = some res →
      1 ≤ (getOrgMembersGo srv fuel page acc).2 := by
  intro fuel
  induction fuel with
  | zero => intro page acc res h; simp [getOrgMembersGo] at h
  | succ f ih =>
    intro page acc res h
    by_cases hemp : srv page = []
    · simp [getOrgMembersGo, hemp]
    · by_cases hshort : (srv page).length < MEMBERS_PER_PAGE
      · simp [getOrgMembersGo, hemp, hshort]
      · have hgo : getOrgMembersGo srv (f + 1) page acc =
            ((getOrgMembersGo srv f (page + 1) (acc ++ srv page)).1,
             (getOrgMembersGo srv f (page + 1) (acc ++ srv page)).2 + 1) := by
          simp [getOrgMembersGo, hemp, hshort]
        rw [hgo]
        simp only []
        omega

/-- C7 counterexample: the crawl's returned list is NOT de-duplicated by
handle — a first page carrying two distinct records with the same handle is
returned as-is. -/
theorem C7_counterexample :
    (getOrgMembersRun dupServer 5).1 = some [dupRecA, dupRecB] ∧
    dupRecA.handle = dupRecB.handle ∧ dupRecA ≠ dupRecB := by decide

/-- C7 (amended): the crawl requests pages sequentially starting at page 1 and
stops at the FIRST page with fewer than the configured 32 records, returning
the concatenation of all fetched pages in order — with NO de-duplication by
handle, so duplicate handles supplied by the server are preserved. -/
theorem C7_roster_crawl_amended (srv : Nat → List MemberRecord) (fuel : Nat)
    (res : List MemberRecord) (h : (getOrgMembersRun srv fuel).1 = some res) :
    ∃ n, 1 ≤ n ∧ (∀ q, 1 ≤ q → q < n → ¬ (srv q).length < MEMBERS_PER_PAGE) ∧
      (srv n).length < MEMBERS_PER_PAGE ∧ res = pagesConcat srv 1 n ∧
      (getOrgMembersRun srv fuel).2 = n := by
  obtain ⟨n, h1, h2, h3, h4, h5⟩ := getOrgMembersGo_characterize srv fuel 1 [] res h
  refine ⟨n, h1, h2, h3, by simpa using h4, ?_⟩
  unfold getOrgMembersRun
  omega

/-- Witness for C7 (amended) at the duplicate-handle server. -/
theorem C7_witness :
    ∃ n, 1 ≤ n ∧ (∀ q, 1 ≤ q → q < n → ¬ (dupServer q).length < MEMBERS_PER_PAGE) ∧
      (dupServer n).length < MEMBERS_PER_PAGE ∧
      [dupRecA, dupRecB] = pagesConcat dupServer 1 n ∧
      (getOrgMembersRun dupServer 5).2 = n :=
  C7_roster_crawl_amended dupServer 5 [dupRecA, dupRecB] (by decide)

/-- C8 counterexample: against a server that keeps answering full pages of 32
records, the crawl is still running after 100000 loop iterations, having made
100000 page fetches — no configured maximum page count bounds the work. -/
theorem C8_counterexample :
    (getOrgMembersRun fullServer 100000).1 = none ∧
    (getOrgMembersRun fullServer 100000).2 = 100000 :=
  ⟨fullServer_runs_forever 100000 1 [], fullServer_fetches 100000 1 []⟩

/-- C8 (amended): the crawl terminates exactly on servers that eventually
answer a page with fewer than 32 records: one such page (with fuel reaching
it) makes the loop finish, while the always-full server keeps the `while True`
loop running forever, one page fetch per iteration, with no maximum-page-count
bound in the code. -/
theorem C8_crawl_termination_amended (srv : Nat → List MemberRecord) :
    ((∃ n, 1 ≤ n ∧ (srv n).length < MEMBERS_PER_PAGE) →
      ∃ fuel res, (getOrgMembersRun srv fuel).1 = some res) ∧
    (∀ fuel, (getOrgMembersRun fullServer fuel).1 = none) ∧
    (∀ fuel, (getOrgMembersRun fullServer fuel).2 = fuel) := by
  refine ⟨?_, fun fuel => fullServer_runs_forever fuel 1 [],
    fun fuel => fullServer_fetches fuel 1 []⟩
  rintro ⟨n, h1, hn⟩
  have hsome := getOrgMembersGo_terminates srv n hn n 1 [] h1 (by omega)
  rcases hres : (getOrgMembersGo srv n 1 []).1 with _ | res
  · rw [hres] at hsome
    simp at hsome
  · exact ⟨n, res, hres⟩

/-- Witness for C8 (amended): a server whose first page is already short makes
the crawl terminate. -/
theorem C8_witness :
    ∃ fuel res, (getOrgMembersRun emptyServer fuel).1 = some res :=
  (C8_crawl_termination_amended emptyServer).1 ⟨1, le_refl 1, by decide⟩

/-- C9 counterexample: a crawl that legitimately yields an empty roster stores
NOTHING in the cache (no known-empty marker), so the repeated request with the
resulting cache state runs the crawl again (1 page fetch, not 0). -/
theorem C9_counterexample :
    getOrgMembers none emptyServer 5 = some ⟨[], 1, none⟩ ∧
    getOrgMembers (OrgMembersCall.cacheAfter ⟨[], 1, none⟩) emptyServer 5 =
      some ⟨[], 1, none⟩ ∧
    (1 : Nat) ≠ 0 := by decide

/-- C9 (amended): `get_org_members` caches only NON-empty results.  An empty
crawl result is returned without writing the cache, so an immediately repeated
request re-runs the crawl (at least one page fetch); a non-empty result is
cached, and a repeated request within the TTL window is served from the cache
with zero page fetches. -/
theorem C9_empty_caching_amended (srv : Nat → List MemberRecord) (fuel : Nat) :
    (∀ c, getOrgMembersRun srv fuel = (some [], c) →
      getOrgMembers none srv fuel = some ⟨[], c, none⟩ ∧
      getOrgMembers ((⟨[], c, none⟩ : OrgMembersCall).cacheAfter) srv fuel =
        some ⟨[], c, none⟩ ∧
      1 ≤ c) ∧
    (∀ ms c, getOrgMembersRun srv fuel = (some ms, c) → ms ≠ [] →
      getOrgMembers none srv fuel = some ⟨ms, c, some ms⟩ ∧
      getOrgMembers (some ms) srv fuel = some ⟨ms, 0, some ms⟩) := by
  constructor
  · intro c h
    have hfst : (getOrgMembersRun srv fuel).1 = some [] := by rw [h]
    have hsnd : (getOrgMembersRun srv fuel).2 = c := by rw [h]
    have hpos := getOrgMembersGo_fetch_pos srv fuel 1 [] []
      (by unfold getOrgMembersRun at hfst; exact hfst)
    unfold getOrgMembersRun at hsnd
    have hcall : getOrgMembers none srv fuel = some ⟨[], c, none⟩ := by
      simp [getOrgMembers, h]
    exact ⟨hcall, hcall, by omega⟩
  · intro ms c h hne
    refine ⟨?_, rfl⟩
    simp [getOrgMembers, h, hne]

/-- Witness for C9 (amended): the empty roster is not cached and re-fetches;
the one-record roster is cached and the repeat is served with zero fetches. -/
theorem C9_witness :
    (getOrgMembers none emptyServer 5 = some ⟨[], 1, none⟩ ∧
      getOrgMembers ((⟨[], 1, none⟩ : OrgMembersCall).cacheAfter) emptyServer 5 =
        some ⟨[], 1, none⟩ ∧
      1 ≤ 1) ∧
    (getOrgMembers none oneRecServer 5 = some ⟨[fullRec], 1, some [fullRec]⟩ ∧
      getOrgMembers (some [fullRec]) oneRecServer 5 = some ⟨[fullRec], 0, some [fullRec]⟩) :=
  ⟨(C9_empty_caching_amended emptyServer 5).1 1 (by decide),
   (C9_empty_caching_amended oneRecServer 5).2 [fullRec] 1 (by decide) (by decide)⟩

end DraXon

